import Mathlib

/-!
Shallow embedding of the production-floor coordination server
(`src/server.py`): the plan lifecycle manager, the presence registry,
the date-scoped event-log queries, the dashboard aggregation projection,
and the downtime and scrap submission handlers, together with theorems
settling the specified properties.
-/

namespace LiveApp

/-- One line item of a production plan: the string-keyed sheet fields plus
the server-assigned `line_id` and the mutable `status`
(source: `upload_plan`, lines 334-337). -/
structure PlanRow where
  fields : List (String × String)
  line_id : String
  status : String
deriving DecidableEq, Repr

/-- A plan is an ordered sequence of rows. -/
abbrev Plan := List PlanRow

/-- One archived-plan record appended to `MACHINE_PLAN_HISTORY`
(source: `handle_mark_plan_complete`, line 753). `archived_at` models the
`datetime.utcnow().isoformat()` stamp as an abstract clock value. -/
structure HistEntry where
  archived_at : Nat
  plan : Plan
deriving DecidableEq, Repr

/-- The three per-machine dictionaries `MACHINE_PLANS`,
`MACHINE_PLAN_QUEUES`, `MACHINE_PLAN_HISTORY` (source line 89), each
modelled as an association list in insertion order. -/
structure MachineState where
  plans : List (String × Plan)
  queues : List (String × List Plan)
  history : List (String × List HistEntry)
deriving DecidableEq, Repr

/-- Python `dict` lookup (`d.get(k)` / `k in d`). -/
def alGet {α : Type} : List (String × α) → String → Option α
  | [], _ => none
  | (k', v) :: rest, k => if k' = k then some v else alGet rest k

/-- Python `dict` assignment `d[k] = v`: replaces the value at an existing
key in place, appends the binding otherwise. -/
def alSet {α : Type} : List (String × α) → String → α → List (String × α)
  | [], k, v => [(k, v)]
  | (k', v') :: rest, k, v =>
    if k' = k then (k, v) :: rest else (k', v') :: alSet rest k v

/-- Row preparation in `upload_plan` (source lines 332-337): take the first
ten decoded sheet records, stamp each with `line_id = machine + "_" +
(index+1)` and initial status `pending`. -/
def mkPlan (machineName : String) (rows : List (List (String × String))) : Plan :=
  (rows.take 10).enum.map fun p =>
    { fields := p.2
      line_id := machineName ++ "_" ++ toString (p.1 + 1)
      status := "pending" }

/-- Outcome reported by `upload_plan`: queued behind an active plan (with
the resulting queue length, source line 348), activated directly
(source line 353), or rejected for a missing machine name (source
line 321). -/
inductive SubmitResult
  | queued (count : Nat)
  | activated
  | missingMachine
deriving DecidableEq, Repr

/-- The guard of lines 340-341: `any(p.get('status') != 'completed' for p
in existing_plan) if existing_plan else False` — true iff the machine has
an active plan with a row whose status is not `completed`. -/
def hasActivePending (s : MachineState) (machineName : String) : Bool :=
  match alGet s.plans machineName with
  | none => false
  | some p => p.any fun r => !(r.status == "completed")

/-- `upload_plan` core (source lines 316-360): if the machine has an active
plan with any row whose status is not `completed`, append the new plan to
the machine's queue; otherwise install the new plan as the active plan
directly. -/
def upload_plan (s : MachineState) (machineName : String)
    (rows : List (List (String × String))) : MachineState × SubmitResult :=
  if machineName = "" then (s, .missingMachine)
  else if hasActivePending s machineName then
    ({ s with
        queues := alSet s.queues machineName
          (((alGet s.queues machineName).getD []) ++ [mkPlan machineName rows]) },
     .queued ((((alGet s.queues machineName).getD []) ++ [mkPlan machineName rows]).length))
  else
    ({ s with plans := alSet s.plans machineName (mkPlan machineName rows) },
     .activated)

/-- The row-marking loop of `handle_mark_plan_complete` (source lines
738-741): set `status = "completed"` on the first row whose `line_id`
matches, leave everything else untouched (`break` after the first hit). -/
def markFirst (plan : Plan) (lineId : String) : Plan :=
  match plan with
  | [] => []
  | r :: rest =>
    if r.line_id = lineId then { r with status := "completed" } :: rest
    else r :: markFirst rest lineId

/-- Body of `handle_mark_plan_complete` once the machine's active plan
`plan0` has been found (source lines 737-759): mark the first matching row
completed; if the plan then has no pending row and the queue is non-empty,
archive the marked plan to history, pop the queue front and install it as
the active plan; otherwise just store the marked plan back. -/
def mark_step (s : MachineState) (now : Nat) (machineName lineId : String)
    (plan0 : Plan) : MachineState :=
  let plan := markFirst plan0 lineId
  let queue := (alGet s.queues machineName).getD []
  if plan.any (fun r => !(r.status == "completed")) then
    { s with plans := alSet s.plans machineName plan }
  else if queue = [] then
    { s with plans := alSet s.plans machineName plan }
  else
    { plans := alSet s.plans machineName (queue.headD [])
      queues := alSet s.queues machineName queue.tail
      history := alSet s.history machineName
        (((alGet s.history machineName).getD []) ++ [⟨now, plan⟩]) }

/-- `handle_mark_plan_complete` (source lines 728-762): a silent no-op on a
falsy `lineId` or machine name (line 733) or an unknown machine (line 736),
`mark_step` otherwise. -/
def handle_mark_plan_complete (s : MachineState) (now : Nat)
    (machineName lineId : String) : MachineState :=
  if lineId = "" ∨ machineName = "" then s
  else (alGet s.plans machineName).elim s (mark_step s now machineName lineId)

/-- Outcome of `handle_request_dequeue_plan`: a `dequeue_failed` reply on
an empty queue (source line 798), activation of the popped plan otherwise
(source line 814), or nothing when the machine name is falsy (source
line 793). -/
inductive DequeueResult
  | emptyQueue
  | dequeued (plan : Plan)
  | noOp
deriving DecidableEq, Repr

/-- `handle_request_dequeue_plan` (source lines 789-817): fail on an empty
queue; otherwise pop the queue head, archive the current active plan when
it exists and is non-empty (even with pending rows), and install the
popped plan as active. -/
def handle_request_dequeue_plan (s : MachineState) (now : Nat)
    (machineName : String) : MachineState × DequeueResult :=
  if machineName = "" then (s, .noOp)
  else if (alGet s.queues machineName).getD [] = [] then (s, .emptyQueue)
  else
    ({ plans := alSet s.plans machineName
         (((alGet s.queues machineName).getD []).headD [])
       queues := alSet s.queues machineName
         (((alGet s.queues machineName).getD []).tail)
       history :=
         if (alGet s.plans machineName).getD [] = [] then s.history
         else alSet s.history machineName
           (((alGet s.history machineName).getD [])
             ++ [⟨now, (alGet s.plans machineName).getD []⟩]) },
     .dequeued (((alGet s.queues machineName).getD []).headD []))

/-- `MACHINE_PLANS.get(machine_name, [])` (source line 719). -/
def getActive (s : MachineState) (machineName : String) : Plan :=
  (alGet s.plans machineName).getD []

/-- `len(MACHINE_PLAN_QUEUES.get(machine_name, []))` (source line 722). -/
def getQueueDepth (s : MachineState) (machineName : String) : Nat :=
  ((alGet s.queues machineName).getD []).length

/-- `MACHINE_PLAN_HISTORY.get(machine_name, [])` (source line 827). -/
def getHistory (s : MachineState) (machineName : String) : List HistEntry :=
  (alGet s.history machineName).getD []

/-! ### Presence registry (`SID_TO_MACHINE`) -/

/-- A presence map: live connection identifier to machine identifier,
modelling the `SID_TO_MACHINE` dict (source line 91). -/
abbrev PresenceMap := List (String × String)

/-- Outcome of `handle_join_machine_room`: success, a conflict with a
distinct connection already bound to the machine (source lines 709-712),
or a missing machine name (source lines 704-706). -/
inductive RegisterResult
  | ok
  | conflict
  | missingName
deriving DecidableEq, Repr

/-- `handle_join_machine_room` core (source lines 700-725): reject a falsy
machine name; reject when some other connection already maps to the
machine; otherwise insert or overwrite the binding for this connection. -/
def handle_join_machine_room (m : PresenceMap) (connId machineName : String) :
    PresenceMap × RegisterResult :=
  if machineName = "" then (m, .missingName)
  else if m.any (fun p => p.2 == machineName && !(p.1 == connId)) then
    (m, .conflict)
  else (alSet m connId machineName, .ok)

/-- `handle_disconnect` (source lines 852-858): remove the binding for the
connection if present, no-op otherwise. -/
def handle_disconnect (m : PresenceMap) (connId : String) : PresenceMap :=
  m.filter fun p => !(p.1 == connId)

/-- Presence states reachable from the empty map by registrations and
disconnections. -/
inductive PReach : PresenceMap → Prop
  | init : PReach []
  | reg {m : PresenceMap} (c n : String) :
      PReach m → PReach (handle_join_machine_room m c n).1
  | unreg {m : PresenceMap} (c : String) :
      PReach m → PReach (handle_disconnect m c)

/-- No two distinct connections map to the same machine identifier. -/
def noTwoConnections (m : PresenceMap) : Prop :=
  ∀ p ∈ m, ∀ q ∈ m, p.2 = q.2 → p.1 = q.1

/-- Connection identifiers are pairwise distinct in the map. -/
def keysNodup (m : PresenceMap) : Prop :=
  m.Pairwise fun p q => p.1 ≠ q.1

/-! ### Production event log and aggregation -/

/-- One production submission (`SUBMISSION_LOG` entry): the parsed
`datetime` (modelled as minutes on an abstract clock, absent when the key
is missing) plus the string-valued form fields read by `broadcast_data`
(source lines 222-260); each is absent when the client omitted it. -/
structure Entry where
  datetime : Option Nat := none
  operator_name : Option String := none
  shift : Option String := none
  machine_name : Option String := none
  fg_part_no : Option String := none
  cable_id : Option String := none
  produced_qty : Option String := none
  produced_length : Option String := none
  qty_produced_hours : Option String := none
  t1_terminal_id : Option String := none
  t1_apl_no : Option String := none
  t1_crimp_height_manual : Option String := none
  t1_crimp_height_measured : Option String := none
  t1_insulation_height_manual : Option String := none
  t1_insulation_height_measured : Option String := none
  t1_crimp_width_manual : Option String := none
  t1_crimp_width_measured : Option String := none
  t1_insulation_width_manual : Option String := none
  t1_insulation_width_measured : Option String := none
  t1_pull_force_manual : Option String := none
  t1_pull_force_measured : Option String := none
  t2_terminal_id : Option String := none
  t2_apl_no : Option String := none
  t2_crimp_height_manual : Option String := none
  t2_crimp_height_measured : Option String := none
  t2_insulation_height_manual : Option String := none
  t2_insulation_height_measured : Option String := none
  t2_crimp_width_manual : Option String := none
  t2_crimp_width_measured : Option String := none
  t2_insulation_width_manual : Option String := none
  t2_insulation_width_measured : Option String := none
  t2_pull_force_manual : Option String := none
  t2_pull_force_measured : Option String := none
deriving DecidableEq, Repr

/-- Calendar date of a timestamp: `entry['datetime'].date()`, with
timestamps counted in minutes and 1440 minutes to the day. -/
def dateOf (t : Nat) : Nat := t / 1440

/-- Sort key of `get_data_for_date`: the entry's timestamp. -/
def dtKey (e : Entry) : Nat := e.datetime.getD 0

/-- The descending order used by `filtered_log.sort(key=..., reverse=True)`
(source line 183). -/
def newestFirst (a b : Entry) : Prop := dtKey b ≤ dtKey a

instance : DecidableRel newestFirst :=
  fun a b => inferInstanceAs (Decidable (dtKey b ≤ dtKey a))

instance : IsTotal Entry newestFirst :=
  ⟨fun a b => Nat.le_total (dtKey b) (dtKey a)⟩

instance : IsTrans Entry newestFirst :=
  ⟨fun _ _ _ hab hbc => le_trans hbc hab⟩

/-- `get_data_for_date` (source lines 168-184): `none` models an absent or
malformed date filter (full log returned); `some d` models a parsed
calendar date, yielding the entries dated `d`, newest first. -/
def get_data_for_date (log : List Entry) (d : Option Nat) : List Entry :=
  match d with
  | none => log
  | some fd =>
    List.insertionSort newestFirst
      (log.filter fun e =>
        match e.datetime with
        | some t => dateOf t == fd
        | none => false)

/-- Python `a or b` on two optional strings: `a` when present and
non-empty, `b` otherwise (source lines 224-234). -/
def pyOr (a b : Option String) : Option String :=
  match a with
  | some s => if s = "" then b else a
  | none => b

/-- The `clean_entry` record built by `broadcast_data` for each production
entry (source lines 236-260). -/
structure CleanEntry where
  time_display : Option Nat
  worker_name : String
  shift : String
  machine_name : String
  fg_part_no : String
  cable_id : String
  produced_qty : Option String
  produced_length : Option String
  qty_produced_hours : Option String
  t1_terminal_id : String
  t1_apl_no : String
  t1_crimp_height : Option String
  t1_insulation_height : Option String
  t1_crimp_width : Option String
  t1_insulation_width : Option String
  t1_pull_force : Option String
  t2_terminal_id : String
  t2_apl_no : String
  t2_crimp_height : Option String
  t2_insulation_height : Option String
  t2_crimp_width : Option String
  t2_insulation_width : Option String
  t2_pull_force : Option String
deriving DecidableEq, Repr

/-- Per-entry projection of `broadcast_data` (source lines 222-260):
resolve the manual-over-measured override for the ten T1/T2 metric fields
with Python `or`, and fill display defaults for the remaining fields. -/
def clean_entry (e : Entry) : CleanEntry :=
  { time_display := e.datetime
    worker_name := e.operator_name.getD "N/A"
    shift := e.shift.getD "N/A"
    machine_name := e.machine_name.getD "N/A"
    fg_part_no := e.fg_part_no.getD "N/A"
    cable_id := e.cable_id.getD "N/A"
    produced_qty := e.produced_qty
    produced_length := e.produced_length
    qty_produced_hours := e.qty_produced_hours
    t1_terminal_id := e.t1_terminal_id.getD ""
    t1_apl_no := e.t1_apl_no.getD ""
    t1_crimp_height := pyOr e.t1_crimp_height_manual e.t1_crimp_height_measured
    t1_insulation_height := pyOr e.t1_insulation_height_manual e.t1_insulation_height_measured
    t1_crimp_width := pyOr e.t1_crimp_width_manual e.t1_crimp_width_measured
    t1_insulation_width := pyOr e.t1_insulation_width_manual e.t1_insulation_width_measured
    t1_pull_force := pyOr e.t1_pull_force_manual e.t1_pull_force_measured
    t2_terminal_id := e.t2_terminal_id.getD ""
    t2_apl_no := e.t2_apl_no.getD ""
    t2_crimp_height := pyOr e.t2_crimp_height_manual e.t2_crimp_height_measured
    t2_insulation_height := pyOr e.t2_insulation_height_manual e.t2_insulation_height_measured
    t2_crimp_width := pyOr e.t2_crimp_width_manual e.t2_crimp_width_measured
    t2_insulation_width := pyOr e.t2_insulation_width_manual e.t2_insulation_width_measured
    t2_pull_force := pyOr e.t2_pull_force_manual e.t2_pull_force_measured }

/-- The `log` list of the aggregated dashboard snapshot assembled by
`broadcast_data` (source lines 215-261, 285): the date-filtered production
log projected through `clean_entry`. -/
def broadcast_log (log : List Entry) (d : Option Nat) : List CleanEntry :=
  (get_data_for_date log d).map clean_entry

/-- Modelled from the spec's words, for comparison with `clean_entry`:
the displayed value is the manual value whenever a manual value is present
and non-empty, and the measured value otherwise. -/
def specResolve (manual measured : Option String) : Option String :=
  match manual with
  | some s => if s ≠ "" then some s else measured
  | none => measured

/-! ### Downtime submissions -/

/-- Inbound payload of `handle_submit_downtime` (source lines 630-656):
parsed start and end timestamps in seconds on an abstract clock (absent
when the key is missing or unparseable, both of which abort the handler),
plus the optional descriptive fields. -/
structure DowntimeData where
  start_time : Option Int := none
  end_time : Option Int := none
  operator_name : Option String := none
  shift : Option String := none
  machine_name : Option String := none
  fg_part_no : Option String := none
  cable_id : Option String := none
  reason : Option String := none
  t1_apl_no : Option String := none
  t2_apl_no : Option String := none
deriving DecidableEq, Repr

/-- One stored downtime log entry (source lines 643-656), with the derived
`total_hours = (end_time - start_time).total_seconds() / 3600`. -/
structure DowntimeEntry where
  start_time : Int
  end_time : Int
  total_hours : ℚ
  worker_name : String
  shift : String
  machine_name : String
  fg_part_no : String
  cable_id : String
  reason : String
  t1_apl_no : String
  t2_apl_no : String
deriving DecidableEq, Repr

/-- `handle_submit_downtime` (source lines 630-661): fail when either
timestamp is missing or unparseable; otherwise append the derived entry to
the downtime log — with no comparison of end against start — and report
success. -/
def handle_submit_downtime (log : List DowntimeEntry) (data : DowntimeData) :
    List DowntimeEntry × Bool :=
  match data.start_time, data.end_time with
  | some s, some e =>
    (log ++ [{ start_time := s
               end_time := e
               total_hours := ((e - s : Int) : ℚ) / 3600
               worker_name := data.operator_name.getD "N/A"
               shift := data.shift.getD "N/A"
               machine_name := data.machine_name.getD "N/A"
               fg_part_no := data.fg_part_no.getD "N/A"
               cable_id := data.cable_id.getD "N/A"
               reason := data.reason.getD "No Reason Provided"
               t1_apl_no := data.t1_apl_no.getD "N/A"
               t2_apl_no := data.t2_apl_no.getD "N/A" }], true)
  | _, _ => (log, false)

/-! ### Scrap submissions -/

/-- A scrap payload: the opaque structured body plus the optional
timestamp slot inspected by `handle_scrap_submission`. -/
structure ScrapData where
  timestamp : Option String := none
  body : List (String × String) := []
deriving DecidableEq, Repr

/-- `handle_scrap_submission` (source lines 675-693): emit the payload to
all clients immediately (line 677, before any timestamp handling), assign
a server timestamp when the payload lacks one (lines 682-683), append to
the scrap log (line 686), then emit the payload to all clients a second
time (line 693). Returns the emitted payloads in order, and the new log. -/
def handle_scrap_submission (log : List ScrapData) (now : String)
    (data : ScrapData) : List ScrapData × List ScrapData :=
  let stamped :=
    if data.timestamp = none then { data with timestamp := some now } else data
  ([data, stamped], log ++ [stamped])

/-! ### Concrete scenario states -/

/-- The machine-lifecycle state of a fresh server with no persisted data. -/
def emptyState : MachineState := { plans := [], queues := [], history := [] }

/-- One decoded one-column sheet row. -/
def sheetRow (v : String) : List (String × String) := [("part", v)]

/-- Scenario: upload a one-row plan to `M1`, complete its only row (queue
empty, so no promotion), then upload a second plan. -/
def scn1Step1 : MachineState := (upload_plan emptyState "M1" [sheetRow "P1"]).1

/-- Second step of the first scenario. -/
def scn1Step2 : MachineState := handle_mark_plan_complete scn1Step1 0 "M1" "M1_1"

/-- Third step of the first scenario. -/
def scn1Step3 : MachineState := (upload_plan scn1Step2 "M1" [sheetRow "P2"]).1

/-- Scenario: plan A (one row) active on `M1`, plan B (two rows) queued. -/
def scn2Base : MachineState :=
  (upload_plan (upload_plan emptyState "M1" [sheetRow "A1"]).1 "M1"
    [sheetRow "B1", sheetRow "B2"]).1

/-- Marking A's only row once on the second scenario. -/
def scn2Once : MachineState := handle_mark_plan_complete scn2Base 5 "M1" "M1_1"

/-- Marking A's only row a second time on the second scenario. -/
def scn2Twice : MachineState := handle_mark_plan_complete scn2Once 5 "M1" "M1_1"

/-- A production entry carrying both a manual and a measured crimp height
for terminal T1. -/
def overrideEntry : Entry :=
  { datetime := some 0
    t1_crimp_height_manual := some "5.2"
    t1_crimp_height_measured := some "5.0" }

/-- A production entry with a concrete timestamp. -/
def stampedEntry : Entry := { datetime := some 100000 }

/-- A downtime payload whose end time precedes its start time. -/
def backwardsDowntime : DowntimeData :=
  { start_time := some 7200, end_time := some 0 }

/-- A scrap payload with no client timestamp. -/
def bareScrap : ScrapData := { timestamp := none, body := [("machine", "M1")] }

/-! ## Helper lemmas -/

theorem alGet_alSet_self {α : Type} (l : List (String × α)) (k : String) (v : α) :
    alGet (alSet l k v) k = some v := by
  induction l with
  | nil => simp [alGet, alSet]
  | cons p rest ih =>
    obtain ⟨k', v'⟩ := p
    by_cases h : k' = k
    · simp [alSet, alGet, h]
    · simp [alSet, alGet, h, ih]

theorem alSet_alSet_self {α : Type} (l : List (String × α)) (k : String) (v w : α) :
    alSet (alSet l k v) k w = alSet l k w := by
  induction l with
  | nil => simp [alSet]
  | cons p rest ih =>
    obtain ⟨k', v'⟩ := p
    by_cases h : k' = k
    · simp [alSet, h]
    · simp [alSet, h, ih]

theorem markFirst_markFirst (plan : Plan) (lineId : String) :
    markFirst (markFirst plan lineId) lineId = markFirst plan lineId := by
  induction plan with
  | nil => rfl
  | cons r rest ih =>
    by_cases h : r.line_id = lineId
    · simp [markFirst, h]
    · simp [markFirst, h, ih]

theorem hasActivePending_iff (s : MachineState) (m : String) :
    hasActivePending s m = true ↔
      ∃ r ∈ (alGet s.plans m).getD [], r.status ≠ "completed" := by
  unfold hasActivePending
  cases alGet s.plans m with
  | none => simp
  | some p => simp [List.any_eq_true]

theorem mem_alSet {α : Type} {l : List (String × α)} {k : String} {v : α}
    {p : String × α} (hnd : l.Pairwise fun a b => a.1 ≠ b.1)
    (hp : p ∈ alSet l k v) : p = (k, v) ∨ (p ∈ l ∧ p.1 ≠ k) := by
  induction l with
  | nil =>
    simp [alSet] at hp
    simp [hp]
  | cons q rest ih =>
    obtain ⟨k', v'⟩ := q
    rw [List.pairwise_cons] at hnd
    by_cases h : k' = k
    · subst h
      simp only [alSet, if_true, eq_self_iff_true, List.mem_cons] at hp
      rcases hp with hpe | hp
      · exact Or.inl hpe
      · exact Or.inr ⟨List.mem_cons_of_mem _ hp, (hnd.1 p hp).symm⟩
    · simp only [alSet, if_neg h, List.mem_cons] at hp
      rcases hp with hpe | hp
      · refine Or.inr ⟨?_, ?_⟩
        · rw [hpe]; exact List.mem_cons_self _ _
        · rw [hpe]; exact h
      · rcases ih hnd.2 hp with hpk | ⟨hm, hk⟩
        · exact Or.inl hpk
        · exact Or.inr ⟨List.mem_cons_of_mem _ hm, hk⟩

theorem keysNodup_alSet {α : Type} {l : List (String × α)} (k : String) (v : α)
    (hnd : l.Pairwise fun a b => a.1 ≠ b.1) :
    (alSet l k v).Pairwise fun a b => a.1 ≠ b.1 := by
  induction l with
  | nil => simp [alSet]
  | cons q rest ih =>
    obtain ⟨k', v'⟩ := q
    rw [List.pairwise_cons] at hnd
    by_cases h : k' = k
    · subst h
      simp only [alSet, if_true, eq_self_iff_true]
      exact List.pairwise_cons.mpr ⟨hnd.1, hnd.2⟩
    · simp only [alSet, if_neg h]
      refine List.pairwise_cons.mpr ⟨?_, ih hnd.2⟩
      intro b hb
      rcases mem_alSet hnd.2 hb with hbe | ⟨hm, _⟩
      · rw [hbe]; exact h
      · exact hnd.1 b hm

theorem pyOr_eq_specResolve (a b : Option String) : pyOr a b = specResolve a b := by
  cases a with
  | none => rfl
  | some s => by_cases h : s = "" <;> simp [pyOr, specResolve, h]

theorem any_pending_eq_false {p : Plan} :
    ((p.any fun r => !(r.status == "completed")) = false) ↔
      (p.all fun r => r.status == "completed") = true := by
  induction p with
  | nil => simp
  | cons r rest ih => simp [List.any_cons, List.all_cons, ih]

theorem alGet_handle_disconnect_self (m : PresenceMap) (c : String) :
    alGet (handle_disconnect m c) c = none := by
  induction m with
  | nil => rfl
  | cons p rest ih =>
    obtain ⟨k', v'⟩ := p
    by_cases h : k' = c
    · simpa [handle_disconnect, h] using ih
    · simpa [handle_disconnect, alGet, h] using ih

theorem alGet_handle_disconnect_other (m : PresenceMap) (c c' : String)
    (h : c' ≠ c) : alGet (handle_disconnect m c) c' = alGet m c' := by
  induction m with
  | nil => rfl
  | cons p rest ih =>
    obtain ⟨k', v'⟩ := p
    by_cases hk : k' = c
    · subst hk
      simpa [handle_disconnect, alGet, Ne.symm h] using ih
    · by_cases hk' : k' = c'
      · simp [handle_disconnect, alGet, hk, hk', h]
      · simpa [handle_disconnect, alGet, hk, hk'] using ih

theorem handle_disconnect_absent (m : PresenceMap) (c : String)
    (h : alGet m c = none) : handle_disconnect m c = m := by
  induction m with
  | nil => rfl
  | cons p rest ih =>
    obtain ⟨k', v'⟩ := p
    by_cases hk : k' = c
    · simp [alGet, hk] at h
    · simp only [alGet, if_neg hk] at h
      simp [handle_disconnect, hk] at ih ⊢
      exact ih h

theorem preach_invariant {m : PresenceMap} (h : PReach m) :
    keysNodup m ∧ noTwoConnections m := by
  induction h with
  | init =>
    refine ⟨List.Pairwise.nil, ?_⟩
    intro p hp
    simp at hp
  | @reg m' c n _ ih =>
    unfold handle_join_machine_room
    by_cases hn : n = ""
    · rw [if_pos hn]
      exact ih
    · rw [if_neg hn]
      by_cases hc : m'.any (fun p => p.2 == n && !(p.1 == c)) = true
      · rw [if_pos hc]
        exact ih
      · rw [if_neg hc]
        have hno : ∀ p ∈ m', ¬(p.2 = n ∧ p.1 ≠ c) := by
          intro p hp hcontra
          apply hc
          exact List.any_eq_true.mpr ⟨p, hp, by simp [hcontra.1, hcontra.2]⟩
        refine ⟨keysNodup_alSet c n ih.1, ?_⟩
        intro p hp q hq heq
        rcases mem_alSet ih.1 hp with hpe | ⟨hpm, hpk⟩ <;>
          rcases mem_alSet ih.1 hq with hqe | ⟨hqm, hqk⟩
        · rw [hpe, hqe]
        · exact absurd ⟨by rw [← heq, hpe], hqk⟩ (hno q hqm)
        · exact absurd ⟨by rw [heq, hqe], hpk⟩ (hno p hpm)
        · exact ih.2 p hpm q hqm heq
  | @unreg m' c _ ih =>
    refine ⟨List.Pairwise.filter _ ih.1, ?_⟩
    intro p hp q hq heq
    exact ih.2 p (List.mem_of_mem_filter hp) q (List.mem_of_mem_filter hq) heq

theorem mark_step_promotes (s : MachineState) (now : Nat) (m lineId : String)
    (plan0 next : Plan) (rest : List Plan)
    (hq : (alGet s.queues m).getD [] = next :: rest)
    (hall : ((markFirst plan0 lineId).all fun r => r.status == "completed") = true) :
    mark_step s now m lineId plan0 =
      { plans := alSet s.plans m next
        queues := alSet s.queues m rest
        history := alSet s.history m
          (((alGet s.history m).getD []) ++ [⟨now, markFirst plan0 lineId⟩]) } := by
  have hnp : ((markFirst plan0 lineId).any fun r => !(r.status == "completed")) = false :=
    any_pending_eq_false.mpr hall
  simp only [mark_step, hnp, hq]
  simp

theorem mark_step_stay (s : MachineState) (now : Nat) (m lineId : String)
    (plan0 : Plan)
    (h : ((markFirst plan0 lineId).any fun r => !(r.status == "completed")) = true
       ∨ (alGet s.queues m).getD [] = []) :
    mark_step s now m lineId plan0 =
      { s with plans := alSet s.plans m (markFirst plan0 lineId) } := by
  rcases h with h | h
  · simp only [mark_step, h]
    simp
  · simp only [mark_step, h]
    by_cases hp : ((markFirst plan0 lineId).any fun r => !(r.status == "completed")) = true
    · simp [hp]
    · simp [hp]

/-! ## Claim theorems -/

/-- C2: when `markRowComplete` completes the last remaining pending row of
the machine's active plan and the queue is non-empty, the new active plan
is the former queue head (popped from the front), and the history gains
exactly one new entry whose plan is the previously active plan (in its
now fully-completed form). -/
theorem c2_promotion_on_last_completion (s : MachineState) (now : Nat)
    (m lineId : String) (plan0 next : Plan) (rest : List Plan)
    (hm : m ≠ "") (hl : lineId ≠ "")
    (hget : alGet s.plans m = some plan0)
    (hq : (alGet s.queues m).getD [] = next :: rest)
    (_hrow : ∃ r ∈ plan0, r.line_id = lineId ∧ r.status ≠ "completed")
    (hall : ((markFirst plan0 lineId).all fun r => r.status == "completed") = true) :
    getActive (handle_mark_plan_complete s now m lineId) m = next ∧
    (alGet (handle_mark_plan_complete s now m lineId).queues m).getD [] = rest ∧
    getHistory (handle_mark_plan_complete s now m lineId) m
      = getHistory s m ++ [⟨now, markFirst plan0 lineId⟩] := by
  have hstep : handle_mark_plan_complete s now m lineId
      = { plans := alSet s.plans m next
          queues := alSet s.queues m rest
          history := alSet s.history m
            (((alGet s.history m).getD []) ++ [⟨now, markFirst plan0 lineId⟩]) } := by
    unfold handle_mark_plan_complete
    rw [if_neg (not_or.mpr ⟨hl, hm⟩), hget]
    exact mark_step_promotes s now m lineId plan0 next rest hq hall
  rw [hstep]
  refine ⟨?_, ?_, ?_⟩
  · unfold getActive
    rw [alGet_alSet_self]
    rfl
  · rw [alGet_alSet_self]
    rfl
  · unfold getHistory
    rw [alGet_alSet_self]
    rfl

/-- Witness for C2 on the concrete two-plan scenario. -/
theorem c2_promotion_witness :
    getActive (handle_mark_plan_complete scn2Base 5 "M1" "M1_1") "M1"
      = mkPlan "M1" [sheetRow "B1", sheetRow "B2"] ∧
    getHistory (handle_mark_plan_complete scn2Base 5 "M1" "M1_1") "M1"
      = getHistory scn2Base "M1"
        ++ [⟨5, markFirst (mkPlan "M1" [sheetRow "A1"]) "M1_1"⟩] := by
  have h := c2_promotion_on_last_completion scn2Base 5 "M1" "M1_1"
    (mkPlan "M1" [sheetRow "A1"]) (mkPlan "M1" [sheetRow "B1", sheetRow "B2"]) []
    (by decide) (by decide) (by decide) (by decide)
    (by decide) (by decide)
  exact ⟨h.1, h.2.2⟩

/-- C4: when the machine has an active plan containing a row whose status
is not `completed`, `upload_plan` leaves the active plan unchanged, appends
the new plan to the back of the queue, reports it queued, and the queue
depth grows by exactly one. -/
theorem c4_submit_appends_to_queue (s : MachineState) (m : String)
    (rows : List (List (String × String))) (hm : m ≠ "")
    (hp : ∃ r ∈ (alGet s.plans m).getD [], r.status ≠ "completed") :
    (upload_plan s m rows).1.plans = s.plans ∧
    getActive (upload_plan s m rows).1 m = getActive s m ∧
    (alGet (upload_plan s m rows).1.queues m).getD []
      = ((alGet s.queues m).getD []) ++ [mkPlan m rows] ∧
    getQueueDepth (upload_plan s m rows).1 m = getQueueDepth s m + 1 ∧
    (upload_plan s m rows).2 = SubmitResult.queued (getQueueDepth s m + 1) := by
  have hpend : hasActivePending s m = true := (hasActivePending_iff s m).mpr hp
  unfold upload_plan
  rw [if_neg hm, if_pos hpend]
  refine ⟨rfl, rfl, ?_, ?_, ?_⟩
  · rw [alGet_alSet_self]
    rfl
  · unfold getQueueDepth
    rw [alGet_alSet_self]
    simp
  · unfold getQueueDepth
    simp

/-- Witness for C4 on the concrete one-plan scenario. -/
theorem c4_submit_witness :
    getActive (upload_plan scn1Step1 "M1" [sheetRow "Q"]).1 "M1"
      = getActive scn1Step1 "M1" ∧
    getQueueDepth (upload_plan scn1Step1 "M1" [sheetRow "Q"]).1 "M1"
      = getQueueDepth scn1Step1 "M1" + 1 := by
  have h := c4_submit_appends_to_queue scn1Step1 "M1" [sheetRow "Q"]
    (by decide) (by decide)
  exact ⟨h.2.1, h.2.2.2.1⟩

/-- C5: `handle_request_dequeue_plan` fails with an empty-queue reply and
changes nothing when the queue is empty; otherwise it pops the queue
front, installs it as the active plan, and archives the previous active
plan to history exactly when that plan existed and was non-empty — even if
it still had pending rows. -/
theorem c5_dequeue_behaviour (s : MachineState) (now : Nat) (m : String)
    (hm : m ≠ "") :
    ((alGet s.queues m).getD [] = [] →
      handle_request_dequeue_plan s now m = (s, DequeueResult.emptyQueue)) ∧
    (∀ next rest, (alGet s.queues m).getD [] = next :: rest →
      (handle_request_dequeue_plan s now m).2 = DequeueResult.dequeued next ∧
      getActive (handle_request_dequeue_plan s now m).1 m = next ∧
      (alGet (handle_request_dequeue_plan s now m).1.queues m).getD [] = rest ∧
      getHistory (handle_request_dequeue_plan s now m).1 m
        = getHistory s m ++
          (if (alGet s.plans m).getD [] = [] then []
           else [⟨now, (alGet s.plans m).getD []⟩])) := by
  constructor
  · intro hq
    unfold handle_request_dequeue_plan
    rw [if_neg hm, if_pos hq]
  · intro next rest hq
    unfold handle_request_dequeue_plan
    rw [if_neg hm, if_neg (by rw [hq]; exact List.cons_ne_nil _ _), hq]
    refine ⟨rfl, ?_, ?_, ?_⟩
    · unfold getActive
      rw [alGet_alSet_self]
      rfl
    · rw [alGet_alSet_self]
      rfl
    · by_cases hcur : (alGet s.plans m).getD [] = []
      · simp only [getHistory, hcur, if_pos, if_true, eq_self_iff_true]
        simp
      · simp only [getHistory, if_neg hcur]
        rw [alGet_alSet_self]
        rfl

/-- Witness for C5: an empty queue fails and changes nothing; a non-empty
queue activates the former queue head. -/
theorem c5_dequeue_witness :
    handle_request_dequeue_plan emptyState 9 "M1"
      = (emptyState, DequeueResult.emptyQueue) ∧
    (handle_request_dequeue_plan scn2Base 9 "M1").2
      = DequeueResult.dequeued (mkPlan "M1" [sheetRow "B1", sheetRow "B2"]) := by
  constructor
  · exact (c5_dequeue_behaviour emptyState 9 "M1" (by decide)).1 (by decide)
  · exact ((c5_dequeue_behaviour scn2Base 9 "M1" (by decide)).2
      (mkPlan "M1" [sheetRow "B1", sheetRow "B2"]) [] (by decide)).1

/-- C7: appending a production entry whose timestamp falls on calendar
date `dateOf t` and querying that date returns a sequence containing the
entry, sorted newest-first; querying any other calendar date never returns
the entry. -/
theorem c7_query_by_date_roundtrip (log : List Entry) (e : Entry) (t : Nat)
    (h : e.datetime = some t) :
    e ∈ get_data_for_date (log ++ [e]) (some (dateOf t)) ∧
    (∀ d', d' ≠ dateOf t → e ∉ get_data_for_date (log ++ [e]) (some d')) ∧
    (get_data_for_date (log ++ [e]) (some (dateOf t))).Sorted newestFirst := by
  refine ⟨?_, ?_, ?_⟩
  · unfold get_data_for_date
    rw [List.mem_insertionSort]
    refine List.mem_filter.mpr ⟨by simp, ?_⟩
    simp [h]
  · intro d' hd' hmem
    unfold get_data_for_date at hmem
    rw [List.mem_insertionSort] at hmem
    have h2 := (List.mem_filter.mp hmem).2
    simp [h] at h2
    exact hd' h2.symm
  · exact List.sorted_insertionSort newestFirst _

/-- Witness for C7 at a concrete entry and log. -/
theorem c7_query_witness :
    stampedEntry ∈ get_data_for_date [stampedEntry] (some (dateOf 100000)) ∧
    stampedEntry ∉ get_data_for_date [stampedEntry] (some 0) := by
  have h := c7_query_by_date_roundtrip [] stampedEntry 100000 rfl
  refine ⟨?_, ?_⟩
  · have h1 := h.1
    simpa using h1
  · have h2 := h.2.1 0 (by decide)
    simpa using h2

/-- C8: in the aggregated snapshot log, each of the ten T1/T2 metric
fields displays the manual value whenever a manual value is present and
non-empty, and the measured value otherwise; in particular a manual crimp
height of "5.2" wins over a measured "5.0". -/
theorem c8_manual_overrides_measured :
    (∀ e : Entry,
      (clean_entry e).t1_crimp_height
        = specResolve e.t1_crimp_height_manual e.t1_crimp_height_measured ∧
      (clean_entry e).t1_insulation_height
        = specResolve e.t1_insulation_height_manual e.t1_insulation_height_measured ∧
      (clean_entry e).t1_crimp_width
        = specResolve e.t1_crimp_width_manual e.t1_crimp_width_measured ∧
      (clean_entry e).t1_insulation_width
        = specResolve e.t1_insulation_width_manual e.t1_insulation_width_measured ∧
      (clean_entry e).t1_pull_force
        = specResolve e.t1_pull_force_manual e.t1_pull_force_measured ∧
      (clean_entry e).t2_crimp_height
        = specResolve e.t2_crimp_height_manual e.t2_crimp_height_measured ∧
      (clean_entry e).t2_insulation_height
        = specResolve e.t2_insulation_height_manual e.t2_insulation_height_measured ∧
      (clean_entry e).t2_crimp_width
        = specResolve e.t2_crimp_width_manual e.t2_crimp_width_measured ∧
      (clean_entry e).t2_insulation_width
        = specResolve e.t2_insulation_width_manual e.t2_insulation_width_measured ∧
      (clean_entry e).t2_pull_force
        = specResolve e.t2_pull_force_manual e.t2_pull_force_measured) ∧
    (∀ (log : List Entry) (d : Option Nat),
      broadcast_log log d = (get_data_for_date log d).map clean_entry) ∧
    (clean_entry overrideEntry).t1_crimp_height = some "5.2" := by
  refine ⟨fun e => ?_, fun log d => rfl, by decide⟩
  refine ⟨?_, ?_, ?_, ?_, ?_, ?_, ?_, ?_, ?_, ?_⟩ <;>
    exact pyOr_eq_specResolve _ _

/-- C9: a downtime submission whose end time precedes its start time is
accepted without validation and reported successful; the appended entry
carries `total_hours = (end - start) / 3600`, negative in that case. -/
theorem c9_downtime_accepts_negative (log : List DowntimeEntry)
    (data : DowntimeData) (s e : Int) (hs : data.start_time = some s)
    (he : data.end_time = some e) (hlt : e < s) :
    (handle_submit_downtime log data).2 = true ∧
    ∃ entry : DowntimeEntry,
      (handle_submit_downtime log data).1 = log ++ [entry] ∧
      entry.start_time = s ∧ entry.end_time = e ∧
      entry.total_hours = ((e - s : Int) : ℚ) / 3600 ∧
      entry.total_hours < 0 := by
  unfold handle_submit_downtime
  rw [hs, he]
  refine ⟨rfl, _, rfl, rfl, rfl, rfl, ?_⟩
  have h1 : ((e - s : Int) : ℚ) < 0 := by
    have h0 : (e - s : Int) < 0 := by omega
    exact_mod_cast h0
  exact div_neg_of_neg_of_pos h1 (by norm_num)

/-- Witness for C9 at a concrete backwards interval. -/
theorem c9_downtime_witness :
    (handle_submit_downtime [] backwardsDowntime).2 = true ∧
    ∃ entry : DowntimeEntry,
      (handle_submit_downtime [] backwardsDowntime).1 = [entry] ∧
      entry.total_hours < 0 := by
  obtain ⟨hsucc, entry, hlog, _, _, _, hneg⟩ :=
    c9_downtime_accepts_negative [] backwardsDowntime 7200 0 rfl rfl (by norm_num)
  refine ⟨hsucc, entry, ?_, hneg⟩
  simpa using hlog

/-- C10: every scrap submission is broadcast to all clients twice — once
before any timestamp handling (so a payload lacking a timestamp is first
broadcast without one), and once after the server assigns a timestamp when
absent and appends the entry to the scrap log. -/
theorem c10_scrap_double_broadcast (log : List ScrapData) (now : String)
    (data : ScrapData) :
    ∃ stamped : ScrapData,
      (handle_scrap_submission log now data).1 = [data, stamped] ∧
      (handle_scrap_submission log now data).2 = log ++ [stamped] ∧
      (data.timestamp = none →
        stamped = { data with timestamp := some now }) ∧
      (∀ t, data.timestamp = some t → stamped = data) := by
  unfold handle_scrap_submission
  by_cases h : data.timestamp = none
  · refine ⟨{ data with timestamp := some now }, by simp [h], by simp [h],
      fun _ => rfl, ?_⟩
    intro t ht
    rw [h] at ht
    cases ht
  · exact ⟨data, by simp [h], by simp [h], fun hc => absurd hc h,
      fun t _ => rfl⟩

/-- Witness for C10: a payload without a timestamp is first broadcast
without one and then broadcast and stored with the server timestamp. -/
theorem c10_scrap_witness :
    (handle_scrap_submission [] "T0" bareScrap).1
      = [bareScrap, { bareScrap with timestamp := some "T0" }] ∧
    (handle_scrap_submission [] "T0" bareScrap).2
      = [{ bareScrap with timestamp := some "T0" }] ∧
    bareScrap.timestamp = none := by
  obtain ⟨stamped, h1, h2, h3, _⟩ :=
    c10_scrap_double_broadcast [] "T0" bareScrap
  have hst : stamped = { bareScrap with timestamp := some "T0" } := h3 rfl
  rw [hst] at h1 h2
  exact ⟨h1, by simpa using h2, rfl⟩

/-- C6: registration fails with a conflict exactly when another distinct
connection currently maps to the machine name, otherwise inserts or
overwrites the binding; disconnection removes the binding and is a no-op
when absent; and every reachable presence state maps no machine to two
distinct connections. -/
theorem c6_presence_registry (m : PresenceMap) (c n : String) :
    (PReach m → noTwoConnections m) ∧
    (n ≠ "" →
      (((handle_join_machine_room m c n).2 = RegisterResult.conflict) ↔
        ∃ p ∈ m, p.2 = n ∧ p.1 ≠ c)) ∧
    (n ≠ "" → (handle_join_machine_room m c n).2 ≠ RegisterResult.conflict →
      (handle_join_machine_room m c n).1 = alSet m c n ∧
      (handle_join_machine_room m c n).2 = RegisterResult.ok) ∧
    alGet (handle_disconnect m c) c = none ∧
    (∀ c', c' ≠ c → alGet (handle_disconnect m c) c' = alGet m c') ∧
    (alGet m c = none → handle_disconnect m c = m) := by
  refine ⟨fun h => (preach_invariant h).2, ?_, ?_,
    alGet_handle_disconnect_self m c, fun c' h => alGet_handle_disconnect_other m c c' h,
    handle_disconnect_absent m c⟩
  · intro hn
    unfold handle_join_machine_room
    rw [if_neg hn]
    by_cases hc : m.any (fun p => p.2 == n && !(p.1 == c)) = true
    · rw [if_pos hc]
      constructor
      · intro _
        obtain ⟨p, hp, hb⟩ := List.any_eq_true.mp hc
        refine ⟨p, hp, ?_⟩
        simpa using hb
      · intro _
        rfl
    · rw [if_neg hc]
      constructor
      · intro hcontra
        simp at hcontra
      · intro ⟨p, hp, h2, h3⟩
        exact absurd (List.any_eq_true.mpr ⟨p, hp, by simp [h2, h3]⟩) hc
  · intro hn hnc
    unfold handle_join_machine_room at hnc ⊢
    rw [if_neg hn] at hnc ⊢
    by_cases hc : m.any (fun p => p.2 == n && !(p.1 == c)) = true
    · rw [if_pos hc] at hnc
      exact absurd rfl hnc
    · rw [if_neg hc]
      exact ⟨rfl, rfl⟩

/-- Witness for C6: a second connection claiming an occupied machine
conflicts, and registration on a free machine installs the binding. -/
theorem c6_presence_witness :
    (handle_join_machine_room [("c1", "M2")] "c2" "M2").2
      = RegisterResult.conflict ∧
    (handle_join_machine_room [] "c1" "M2").1 = [("c1", "M2")] := by
  constructor
  · exact ((c6_presence_registry [("c1", "M2")] "c2" "M2").2.1
      (by decide)).mpr ⟨("c1", "M2"), by simp, rfl, by decide⟩
  · have h := (c6_presence_registry [] "c1" "M2").2.2.1 (by decide) (by decide)
    simpa using h.1

/-- C1 counterexample: after uploading a one-row plan to `M1`, completing
its only row (queue empty, no promotion), and uploading a second plan, the
existing fully-completed active plan leaves the active slot without being
archived — `upload_plan` replaced an existing active plan with an empty
history. -/
theorem c1_counterexample :
    getActive scn1Step2 "M1"
      = [{ fields := [("part", "P1")], line_id := "M1_1", status := "completed" }] ∧
    getActive scn1Step3 "M1"
      = [{ fields := [("part", "P2")], line_id := "M1_1", status := "pending" }] ∧
    getHistory scn1Step3 "M1" = [] := by
  decide

/-- C1 amended: `upload_plan` leaves the active slot untouched whenever
the active plan has a row not yet completed, and otherwise (active plan
absent, empty, or fully completed) activates the new plan directly without
touching history — so a fully-completed active plan is replaced without
archival; `handle_mark_plan_complete` changes the active slot only by full
promotion: archival of the (marked) active plan to history followed by
activation of the queue head. -/
theorem c1_active_slot_amended (s : MachineState) (m : String)
    (rows : List (List (String × String))) (now : Nat) (lineId : String) :
    (m ≠ "" →
      ((∃ r ∈ (alGet s.plans m).getD [], r.status ≠ "completed") →
        (upload_plan s m rows).1.plans = s.plans) ∧
      (¬(∃ r ∈ (alGet s.plans m).getD [], r.status ≠ "completed") →
        alGet (upload_plan s m rows).1.plans m = some (mkPlan m rows) ∧
        (upload_plan s m rows).1.history = s.history)) ∧
    (∀ plan0, alGet s.plans m = some plan0 → lineId ≠ "" → m ≠ "" →
      (alGet (handle_mark_plan_complete s now m lineId).plans m
          = some (markFirst plan0 lineId) ∧
        (handle_mark_plan_complete s now m lineId).queues = s.queues ∧
        (handle_mark_plan_complete s now m lineId).history = s.history) ∨
      (∃ next rest, (alGet s.queues m).getD [] = next :: rest ∧
        alGet (handle_mark_plan_complete s now m lineId).plans m = some next ∧
        (alGet (handle_mark_plan_complete s now m lineId).queues m).getD []
          = rest ∧
        getHistory (handle_mark_plan_complete s now m lineId) m
          = getHistory s m ++ [⟨now, markFirst plan0 lineId⟩])) := by
  constructor
  · intro hm
    constructor
    · intro hp
      unfold upload_plan
      rw [if_neg hm, if_pos ((hasActivePending_iff s m).mpr hp)]
    · intro hnp
      have hfalse : hasActivePending s m = false := by
        cases hb : hasActivePending s m
        · rfl
        · exact absurd ((hasActivePending_iff s m).mp hb) hnp
      unfold upload_plan
      rw [if_neg hm, hfalse, if_neg (by simp)]
      exact ⟨alGet_alSet_self s.plans m (mkPlan m rows), rfl⟩
  · intro plan0 hget hl hm
    unfold handle_mark_plan_complete
    rw [if_neg (not_or.mpr ⟨hl, hm⟩), hget]
    simp only [Option.elim]
    by_cases hpend :
        ((markFirst plan0 lineId).any fun r => !(r.status == "completed")) = true
    · left
      rw [mark_step_stay s now m lineId plan0 (Or.inl hpend)]
      exact ⟨alGet_alSet_self s.plans m (markFirst plan0 lineId), rfl, rfl⟩
    · cases hq : (alGet s.queues m).getD [] with
      | nil =>
        left
        rw [mark_step_stay s now m lineId plan0 (Or.inr hq)]
        exact ⟨alGet_alSet_self s.plans m (markFirst plan0 lineId), rfl, rfl⟩
      | cons next rest =>
        right
        have hall :
            ((markFirst plan0 lineId).all fun r => r.status == "completed") = true := by
          apply any_pending_eq_false.mp
          cases hb : ((markFirst plan0 lineId).any fun r => !(r.status == "completed"))
          · rfl
          · exact absurd hb hpend
        rw [mark_step_promotes s now m lineId plan0 next rest hq hall]
        refine ⟨next, rest, rfl, alGet_alSet_self s.plans m next, ?_, ?_⟩
        · rw [alGet_alSet_self]
          rfl
        · unfold getHistory
          rw [alGet_alSet_self]
          rfl

/-- Witness for the amended C1: direct activation over a fully-completed
active plan leaves history untouched. -/
theorem c1_active_slot_witness :
    alGet (upload_plan scn1Step2 "M1" [sheetRow "P2"]).1.plans "M1"
      = some (mkPlan "M1" [sheetRow "P2"]) ∧
    (upload_plan scn1Step2 "M1" [sheetRow "P2"]).1.history = scn1Step2.history := by
  exact ((c1_active_slot_amended scn1Step2 "M1" [sheetRow "P2"] 0 "x").1
    (by decide)).2 (by decide)

/-- C3 counterexample: when the first call promotes a queued plan whose
rows reuse the machine-scoped `line_id` scheme, a second identical call
mutates the newly activated plan — `markRowComplete` is not idempotent. -/
theorem c3_counterexample :
    scn2Twice ≠ scn2Once ∧
    getActive scn2Once "M1"
      = [{ fields := [("part", "B1")], line_id := "M1_1", status := "pending" },
         { fields := [("part", "B2")], line_id := "M1_2", status := "pending" }] ∧
    getActive scn2Twice "M1"
      = [{ fields := [("part", "B1")], line_id := "M1_1", status := "completed" },
         { fields := [("part", "B2")], line_id := "M1_2", status := "pending" }] := by
  decide

/-- C3 amended: `markRowComplete` with a falsy argument or an unknown
machine is a silent no-op, and it is idempotent provided the first call
does not promote a queued plan (after the mark a pending row remains, or
the queue is empty); when a promotion occurs a repeated call acts on the
newly activated plan, which reuses the same `line_id` scheme. -/
theorem c3_mark_idempotent_amended (s : MachineState) (now : Nat)
    (m lineId : String) :
    ((m = "" ∨ lineId = "" ∨ alGet s.plans m = none) →
      handle_mark_plan_complete s now m lineId = s) ∧
    (∀ plan0, alGet s.plans m = some plan0 →
      (((markFirst plan0 lineId).any fun r => !(r.status == "completed")) = true
        ∨ (alGet s.queues m).getD [] = []) →
      handle_mark_plan_complete (handle_mark_plan_complete s now m lineId)
          now m lineId
        = handle_mark_plan_complete s now m lineId) := by
  constructor
  · intro h
    unfold handle_mark_plan_complete
    rcases h with h | h | h
    · rw [if_pos (Or.inr h)]
    · rw [if_pos (Or.inl h)]
    · by_cases hg : lineId = "" ∨ m = ""
      · rw [if_pos hg]
      · rw [if_neg hg, h]
        rfl
  · intro plan0 hget hside
    by_cases hg : lineId = "" ∨ m = ""
    · unfold handle_mark_plan_complete
      rw [if_pos hg, if_pos hg]
    · have hstep1 : handle_mark_plan_complete s now m lineId
          = { s with plans := alSet s.plans m (markFirst plan0 lineId) } := by
        unfold handle_mark_plan_complete
        rw [if_neg hg, hget]
        exact mark_step_stay s now m lineId plan0 hside
      rw [hstep1]
      unfold handle_mark_plan_complete
      rw [if_neg hg, alGet_alSet_self]
      simp only [Option.elim]
      have hside2 :
          ((markFirst (markFirst plan0 lineId) lineId).any
            fun r => !(r.status == "completed")) = true
          ∨ (alGet ({ s with plans := alSet s.plans m (markFirst plan0 lineId) }
              : MachineState).queues m).getD [] = [] := by
        rw [markFirst_markFirst]
        exact hside
      rw [mark_step_stay _ now m lineId _ hside2]
      rw [markFirst_markFirst, alSet_alSet_self]

/-- Witness for the amended C3: with an empty queue a second identical
call changes nothing. -/
theorem c3_mark_idempotent_witness :
    handle_mark_plan_complete
        (handle_mark_plan_complete scn1Step1 0 "M1" "M1_1") 0 "M1" "M1_1"
      = handle_mark_plan_complete scn1Step1 0 "M1" "M1_1" := by
  exact (c3_mark_idempotent_amended scn1Step1 0 "M1" "M1_1").2
    (mkPlan "M1" [sheetRow "P1"]) (by decide) (Or.inr (by decide))

end LiveApp
